import Mathlib

/-!
Shallow embedding of the field-encryption layer of scidsg/tip-line
(src/hushline/model/field_value.py and the crypto wrappers in src/app.py),
with theorems checking the natural-language specification against it.
-/

set_option maxHeartbeats 1000000
set_option maxRecDepth 100000

namespace TipLine

/-- The fixed marker appended before the random padding words in
`add_padding` (src/hushline/model/field_value.py line 23). -/
def PADDING_HEADER : String := "\n\n(Random text generated by Hush Line: lorum ipsum "

/-- The while-loop of `add_padding` (lines 28-29):
`while len(padding) < target_len: padding += secrets.choice(DICEWARE_WORDS) + " "`.
The draws of `secrets.choice(DICEWARE_WORDS)` are modelled as an arbitrary
stream `choice : Nat → String` of drawn words (`DICEWARE_WORDS` lives in
`hushline.crypto`, which is not part of the sources; no property of the word
list is assumed).  The loop is given explicit fuel; `padLoopFuel_reaches` and
`padLoopFuel_fuel_sufficient` below show that fuel `target` is always enough,
so with that fuel this function is exactly the unbounded while-loop. -/
def padLoopFuel (choice : Nat → String) : Nat → Nat → String → Nat → String
  | 0, _, padding, _ => padding
  | fuel+1, i, padding, target =>
    if padding.length < target then
      padLoopFuel choice fuel (i+1) (padding ++ choice i ++ " ") target
    else
      padding

/-- `add_padding` (src/hushline/model/field_value.py lines 17-33), the word
draws abstracted as the stream `choice`.  The loop runs with fuel
`target_len`, which `padLoopFuel_fuel_sufficient` shows is enough, so this is
the exact value returned by the Python while-loop. -/
def add_padding (choice : Nat → String) (value : String) (block_size : Nat := 512) :
    String :=
  let value := value ++ PADDING_HEADER
  let target_len := block_size - value.length % block_size
  let padding := padLoopFuel choice target_len 0 "" target_len
  let padding := padding ++ ")"
  value ++ padding

/-- Result of `gnupg.GPG.encrypt` as observed by `encrypt_message`
(src/app.py lines 1088-1098): an `ok` flag and the armored data that
`str(encrypted_data)` yields.  An exception inside the library call, which
`encrypt_message` also maps to `None`, is modelled as `ok := false`. -/
structure GPGResult where
  ok : Bool
  data : String
deriving DecidableEq

/-- `encrypt_message` (src/app.py lines 1083-1102): returns `None` when the
library reports a non-ok result (or throws), otherwise the armored string. -/
def encrypt_message (gpg : String → String → GPGResult) (message recipient : String) :
    Option String :=
  let r := gpg message recipient
  if r.ok then some r.data else none

/-- `encrypt_field` (src/app.py lines 71-74): `None` passes through, otherwise
the Fernet encryption of the string.  `fernet.encrypt` is the external
library, abstracted as `enc`. -/
def encrypt_field (enc : String → String) : Option String → Option String
  | none => none
  | some data => some (enc data)

/-- The exception `fernet.decrypt` raises on corrupted ciphertext or a wrong
key (`cryptography.fernet.InvalidToken`), as surfaced by `decrypt_field`. -/
inductive DecryptError where
  | invalidToken
deriving DecidableEq

/-- `decrypt_field` (src/app.py lines 77-80): `None` passes through; otherwise
Fernet decryption runs with no exception handler, so a failing decryption
(`dec` returning `none`) propagates as an error to the caller. -/
def decrypt_field (dec : String → Option String) : Option String →
    Except DecryptError (Option String)
  | none => Except.ok none
  | some data =>
    match dec data with
    | some plain => Except.ok (some plain)
    | none => Except.error DecryptError.invalidToken

/-- The external crypto dependencies of the field layer: the process-wide
Fernet instance (one symmetric key), the PGP encrypt call, and the stream of
diceware word draws. -/
structure CryptoEnv where
  fernetEncrypt : String → String
  fernetDecrypt : String → Option String
  gpgEncrypt : String → String → GPGResult
  choice : Nat → String

/-- The documented contract of Fernet under a single key: decryption inverts
encryption. -/
def CryptoEnv.Roundtrips (env : CryptoEnv) : Prop :=
  ∀ s : String, env.fernetDecrypt (env.fernetEncrypt s) = some s

/-- The owner of the message a `FieldValue` belongs to
(`self.message.username.user`): only its `pgp_key` column is read by the
setter.  `none` models SQL NULL; Python's `if not pgp_key:` also treats the
empty string as absent. -/
structure User where
  pgp_key : Option String
deriving DecidableEq

/-- A `FieldValue` row (src/hushline/model/field_value.py lines 36-45): the
stored `_value` column and the `encrypted` flag. -/
structure FieldValue where
  _value : Option String
  encrypted : Bool
deriving DecidableEq

/-- Python truthiness of an optional string: `None` and `""` are falsy. -/
def strTruthy : Option String → Bool
  | none => false
  | some s => !s.isEmpty

/-- The PGP armor header matched by the setter's idempotence guard
(src/hushline/model/field_value.py line 74). -/
def PGP_MARKER : String := "-----BEGIN PGP MESSAGE-----"

/-- Python's `value.startswith(marker)`: code-point prefix test.  (Lean's own
`String.startsWith` is byte-position based and does not reduce in the kernel,
so the equivalent test on the underlying character lists is used.) -/
def pyStartsWith (value marker : String) : Bool :=
  marker.data.isPrefixOf value.data

/-- Errors raised by the setter: `missingKey` is
`ValueError("User does not have a PGP key")` (line 83), `encryptionFailed` is
`ValueError("Failed to encrypt value")` (line 88). -/
inductive SetError where
  | missingKey
  | encryptionFailed
deriving DecidableEq

/-- Lines 93-98 of the setter: store the symmetric ciphertext, degrading a
`None` codec result to the empty string instead of raising. -/
def storeEncrypted (fv : FieldValue) (val : Option String) : FieldValue :=
  match val with
  | some v => { fv with _value := some v }
  | none => { fv with _value := some "" }

/-- Lines 74-91 of the setter: compute `val_to_save` from the (already
list-joined) value, or fail.  A `raise` is modelled as `Except.error`. -/
def FieldValue.valToSave (env : CryptoEnv) (user : User) (fv : FieldValue)
    (value : String) : Except SetError String :=
  if fv.encrypted && !(pyStartsWith value PGP_MARKER) then
    let padded_value := add_padding env.choice value 512
    match user.pgp_key with
    | none => Except.error SetError.missingKey
    | some pgp_key =>
      if pgp_key.isEmpty then Except.error SetError.missingKey
      else
        match encrypt_message env.gpgEncrypt padded_value pgp_key with
        | none => Except.error SetError.encryptionFailed
        | some encrypted_value =>
          if encrypted_value.isEmpty then Except.error SetError.encryptionFailed
          else Except.ok encrypted_value
  else
    Except.ok value

/-- Lines 70-72 of the setter: a `list` argument is joined into a single
string with newline separators; a `str` argument is used as-is. -/
def joinInput : String ⊕ List String → String
  | Sum.inl s => s
  | Sum.inr l => String.intercalate "\n" l

/-- The `FieldValue.value` setter (src/hushline/model/field_value.py lines
68-98).  The Python code assigns `self._value` only after every raise point,
so an error result leaves the row untouched.  `input` is the
`str | list[str]` argument. -/
def FieldValue.setValue (env : CryptoEnv) (user : User) (fv : FieldValue)
    (input : String ⊕ List String) : Except SetError FieldValue :=
  match FieldValue.valToSave env user fv (joinInput input) with
  | Except.error e => Except.error e
  | Except.ok val_to_save =>
    Except.ok (storeEncrypted fv (encrypt_field env.fernetEncrypt (some val_to_save)))

/-- The `FieldValue.value` getter (lines 60-66): symmetric decode of the
stored column, on demand, with no exception handler. -/
def FieldValue.getValue (env : CryptoEnv) (fv : FieldValue) :
    Except DecryptError (Option String) :=
  decrypt_field env.fernetDecrypt fv._value

/-- Concrete environment for witnesses: an identity Fernet (which trivially
round-trips) and a PGP call that always succeeds. -/
def idEnv : CryptoEnv where
  fernetEncrypt := id
  fernetDecrypt := some
  gpgEncrypt := fun m _ => { ok := true, data := "-----BEGIN PGP MESSAGE-----\n" ++ m }
  choice := fun _ => "apple"

/-- Concrete environment whose PGP library reports failure. -/
def gpgFailEnv : CryptoEnv where
  fernetEncrypt := id
  fernetDecrypt := some
  gpgEncrypt := fun _ _ => { ok := false, data := "" }
  choice := fun _ => "apple"

/-- Concrete environment whose Fernet decryption always fails, as with a
rotated key or corrupted ciphertext. -/
def badDecEnv : CryptoEnv where
  fernetEncrypt := id
  fernetDecrypt := fun _ => none
  gpgEncrypt := fun _ _ => { ok := true, data := "x" }
  choice := fun _ => "apple"

def keyUser : User := { pgp_key := some "PUBKEY" }

def noKeyUser : User := { pgp_key := none }

def plainField : FieldValue := { _value := none, encrypted := false }

def encField : FieldValue := { _value := none, encrypted := true }

/-! ### Helper lemmas -/

theorem padLoopFuel_zero (choice : Nat → String) (i : Nat) (padding : String)
    (target : Nat) : padLoopFuel choice 0 i padding target = padding := rfl

theorem padLoopFuel_succ (choice : Nat → String) (fuel i : Nat) (padding : String)
    (target : Nat) :
    padLoopFuel choice (fuel+1) i padding target =
      if padding.length < target then
        padLoopFuel choice fuel (i+1) (padding ++ choice i ++ " ") target
      else padding := rfl

theorem length_space : (" " : String).length = 1 := by decide

theorem length_close_paren : (")" : String).length = 1 := by decide

theorem length_step (padding w : String) :
    (padding ++ w ++ " ").length = padding.length + w.length + 1 := by
  simp [String.length_append, length_space]

/-- Each loop iteration appends at least one character, so fuel
`target - padding.length` suffices to reach the exit condition. -/
theorem padLoopFuel_reaches (choice : Nat → String) :
    ∀ (fuel i : Nat) (padding : String) (target : Nat),
      target ≤ fuel + padding.length →
      target ≤ (padLoopFuel choice fuel i padding target).length := by
  intro fuel
  induction fuel with
  | zero =>
    intro i padding target h
    rw [padLoopFuel_zero]
    omega
  | succ f ih =>
    intro i padding target h
    rw [padLoopFuel_succ]
    by_cases hlt : padding.length < target
    · rw [if_pos hlt]
      apply ih
      rw [length_step]
      omega
    · rw [if_neg hlt]
      omega

/-- Once the exit condition holds, the loop returns immediately whatever the
fuel. -/
theorem padLoopFuel_of_done (choice : Nat → String) (fuel i : Nat) (padding : String)
    (target : Nat) (h : target ≤ padding.length) :
    padLoopFuel choice fuel i padding target = padding := by
  cases fuel with
  | zero => rfl
  | succ f =>
    rw [padLoopFuel_succ, if_neg (by omega)]

/-- Extra fuel beyond `target - padding.length` is never consumed: the fuelled
loop with sufficient fuel computes the value of the unbounded while-loop. -/
theorem padLoopFuel_fuel_sufficient (choice : Nat → String) :
    ∀ (fuel k i : Nat) (padding : String) (target : Nat),
      target ≤ fuel + padding.length →
      padLoopFuel choice (fuel + k) i padding target =
        padLoopFuel choice fuel i padding target := by
  intro fuel
  induction fuel with
  | zero =>
    intro k i padding target h
    rw [Nat.zero_add, padLoopFuel_of_done choice k i padding target (by omega),
      padLoopFuel_zero]
  | succ f ih =>
    intro k i padding target h
    rw [Nat.succ_add, padLoopFuel_succ, padLoopFuel_succ]
    by_cases hlt : padding.length < target
    · rw [if_pos hlt, if_pos hlt]
      apply ih
      rw [length_step]
      omega
    · rw [if_neg hlt, if_neg hlt]

theorem add_padding_length (choice : Nat → String) (value : String) (block_size : Nat) :
    (add_padding choice value block_size).length =
      (value ++ PADDING_HEADER).length +
        (padLoopFuel choice
          (block_size - (value ++ PADDING_HEADER).length % block_size) 0 ""
          (block_size - (value ++ PADDING_HEADER).length % block_size)).length + 1 := by
  simp [add_padding, String.length_append, length_close_paren]
  omega

/-! ### Claim theorems -/

/-- Claim C1, counterexample: the length of the padded output is not always a
multiple of the block size.  With block size 7 and every draw yielding the
word "apple", `add_padding` returns a 58-character string, and 58 % 7 = 2:
the loop overshoots the block boundary by a word and the closing `")"` adds
one more character. -/
theorem add_padding_not_block_multiple :
    ¬ ((add_padding (fun _ => "apple") "" 7).length % 7 = 0) := by decide

/-- Claim C1, amended: for every input, block size `b > 0` and stream of
drawn words, the padded output is strictly longer than the marker-extended
input rounded up to the next multiple of `b` (the loop reaches the block
boundary, then the closing parenthesis pushes past it); the exact length
depends on the drawn words and need not be a multiple of `b`. -/
theorem add_padding_exceeds_block (choice : Nat → String) (s : String) (b : Nat)
    (hb : 0 < b) :
    ((s ++ PADDING_HEADER).length + (b - (s ++ PADDING_HEADER).length % b)) % b = 0 ∧
    (s ++ PADDING_HEADER).length + (b - (s ++ PADDING_HEADER).length % b) + 1 ≤
      (add_padding choice s b).length := by
  set L := (s ++ PADDING_HEADER).length with hLdef
  set r := L % b with hrdef
  have hlt : r < b := by rw [hrdef]; exact Nat.mod_lt _ hb
  have hle : r ≤ L := by rw [hrdef]; exact Nat.mod_le _ _
  constructor
  · have hdvd : b ∣ L - r := by rw [hrdef]; exact Nat.dvd_sub_mod L
    obtain ⟨c, hc⟩ := hdvd
    have heq : L + (b - r) = b * c + b := by omega
    rw [heq, ← Nat.mul_succ]
    exact Nat.mul_mod_right b (c + 1)
  · have hreach := padLoopFuel_reaches choice (b - r) 0 "" (b - r) (by omega)
    have hlen := add_padding_length choice s b
    rw [← hLdef, ← hrdef] at hlen
    omega

/-- Claim C1, amended, witness at `s = ""`, `b = 7`, all draws "apple". -/
theorem add_padding_exceeds_block_witness :
    (("" ++ PADDING_HEADER).length + (7 - ("" ++ PADDING_HEADER).length % 7)) % 7 = 0 ∧
    ("" ++ PADDING_HEADER).length + (7 - ("" ++ PADDING_HEADER).length % 7) + 1 ≤
      (add_padding (fun _ => "apple") "" 7).length :=
  add_padding_exceeds_block (fun _ => "apple") "" 7 (by decide)

/-- Claim C2: setting a plaintext value that does not start with the armor
marker on an `encrypted = true` field whose owning user's `pgp_key` is absent
(`None` or empty, i.e. falsy) raises the missing-key error; the error result
means the setter never reaches the `_value` assignment, so the stored value
is unchanged. -/
theorem setValue_missing_key (env : CryptoEnv) (user : User) (fv : FieldValue)
    (v : String) (henc : fv.encrypted = true)
    (hm : pyStartsWith v PGP_MARKER = false)
    (hk : strTruthy user.pgp_key = false) :
    FieldValue.setValue env user fv (Sum.inl v) = Except.error SetError.missingKey := by
  cases hpk : user.pgp_key with
  | none => simp [FieldValue.setValue, FieldValue.valToSave, joinInput, henc, hm, hpk]
  | some k =>
    have hke : k.isEmpty = true := by
      rw [hpk] at hk
      simpa [strTruthy] using hk
    simp [FieldValue.setValue, FieldValue.valToSave, joinInput, henc, hm, hpk, hke]

/-- Claim C2, witness: a keyless user, an encrypted field and the plaintext
"hello". -/
theorem setValue_missing_key_witness :
    FieldValue.setValue idEnv noKeyUser encField (Sum.inl "hello") =
      Except.error SetError.missingKey :=
  setValue_missing_key idEnv noKeyUser encField "hello" rfl (by decide) rfl

/-- Claim C3: a value that already starts with the exact armor marker is not
padded or PGP-encrypted again on an `encrypted = true` field: only the
symmetric codec is applied (the stored column is exactly
`fernetEncrypt v`), and the subsequent get returns the original armored text
`v`. -/
theorem setValue_armored_passthrough (env : CryptoEnv) (user : User)
    (fv : FieldValue) (v : String) (hrt : env.Roundtrips)
    (henc : fv.encrypted = true) (hm : pyStartsWith v PGP_MARKER = true) :
    FieldValue.setValue env user fv (Sum.inl v) =
      Except.ok { fv with _value := some (env.fernetEncrypt v) } ∧
    FieldValue.getValue env { fv with _value := some (env.fernetEncrypt v) } =
      Except.ok (some v) := by
  constructor
  · simp [FieldValue.setValue, FieldValue.valToSave, joinInput, henc, hm,
      storeEncrypted, encrypt_field]
  · simp [FieldValue.getValue, decrypt_field, hrt v]

/-- Claim C3, witness: an armored value on an encrypted field, with the
identity Fernet. -/
theorem setValue_armored_passthrough_witness :
    FieldValue.setValue idEnv keyUser encField
        (Sum.inl "-----BEGIN PGP MESSAGE-----\nXYZ") =
      Except.ok { _value := some "-----BEGIN PGP MESSAGE-----\nXYZ", encrypted := true } ∧
    FieldValue.getValue idEnv
        { _value := some "-----BEGIN PGP MESSAGE-----\nXYZ", encrypted := true } =
      Except.ok (some "-----BEGIN PGP MESSAGE-----\nXYZ") :=
  setValue_armored_passthrough idEnv keyUser encField
    "-----BEGIN PGP MESSAGE-----\nXYZ" (fun _ => rfl) rfl (by decide)

/-- Claim C4: the symmetric codec round-trips — for every string `s`,
`decrypt_field (encrypt_field s) = s`, given that the process-wide Fernet
instance inverts itself (the library's documented contract under a single
key). -/
theorem field_codec_roundtrip (env : CryptoEnv) (hrt : env.Roundtrips) (s : String) :
    decrypt_field env.fernetDecrypt (encrypt_field env.fernetEncrypt (some s)) =
      Except.ok (some s) := by
  simp [encrypt_field, decrypt_field, hrt s]

/-- Claim C4, witness at `s = "hello"` with the identity Fernet. -/
theorem field_codec_roundtrip_witness :
    decrypt_field idEnv.fernetDecrypt (encrypt_field idEnv.fernetEncrypt (some "hello")) =
      Except.ok (some "hello") :=
  field_codec_roundtrip idEnv (fun _ => rfl) "hello"

/-- Claim C5: `encrypt_field None = None`, `decrypt_field None = None`
(no error), and the getter returns `None` when the stored value is `None`. -/
theorem field_codec_null (env : CryptoEnv) :
    encrypt_field env.fernetEncrypt none = none ∧
    decrypt_field env.fernetDecrypt none = Except.ok none ∧
    ∀ fv : FieldValue, fv._value = none →
      FieldValue.getValue env fv = Except.ok none := by
  refine ⟨rfl, rfl, ?_⟩
  intro fv h
  simp [FieldValue.getValue, h, decrypt_field]

/-- Claim C5, witness: the getter on a field whose stored value is `None`. -/
theorem field_codec_null_witness :
    FieldValue.getValue idEnv { _value := none, encrypted := false } =
      Except.ok none :=
  (field_codec_null idEnv).2.2 { _value := none, encrypted := false } rfl

/-- Claim C6: when `encrypt_message` returns a falsy value (the PGP library
reported a non-ok result) during a set on an `encrypted = true` field, the
setter raises the encryption-failure error and aborts: the error result
means nothing — in particular not the plaintext — is written to `_value`. -/
theorem setValue_encrypt_failure (env : CryptoEnv) (user : User) (fv : FieldValue)
    (v k : String) (henc : fv.encrypted = true)
    (hm : pyStartsWith v PGP_MARKER = false)
    (hpk : user.pgp_key = some k) (hke : k.isEmpty = false)
    (hfail : strTruthy
      (encrypt_message env.gpgEncrypt (add_padding env.choice v 512) k) = false) :
    FieldValue.setValue env user fv (Sum.inl v) =
      Except.error SetError.encryptionFailed := by
  cases hem : encrypt_message env.gpgEncrypt (add_padding env.choice v 512) k with
  | none =>
    simp [FieldValue.setValue, FieldValue.valToSave, joinInput, henc, hm, hpk,
      hke, hem]
  | some ev =>
    have hev : ev.isEmpty = true := by
      rw [hem] at hfail
      simpa [strTruthy] using hfail
    simp [FieldValue.setValue, FieldValue.valToSave, joinInput, henc, hm, hpk,
      hke, hem, hev]

/-- Claim C6, witness: a PGP library that reports failure. -/
theorem setValue_encrypt_failure_witness :
    FieldValue.setValue gpgFailEnv keyUser encField (Sum.inl "hello") =
      Except.error SetError.encryptionFailed :=
  setValue_encrypt_failure gpgFailEnv keyUser encField "hello" "PUBKEY" rfl
    (by decide) rfl (by decide) rfl

/-- Claim C7: when the stored ciphertext fails to decrypt (corruption or a
different key), the getter propagates the failure as an error; it is never
returned as `ok` — in particular not as `ok none` ("no value") or
`ok (some "")`, so callers can tell "no value" from "failed to decrypt". -/
theorem getValue_decrypt_error (env : CryptoEnv) (fv : FieldValue) (d : String)
    (hv : fv._value = some d) (hd : env.fernetDecrypt d = none) :
    FieldValue.getValue env fv = Except.error DecryptError.invalidToken ∧
    ∀ o : Option String, FieldValue.getValue env fv ≠ Except.ok o := by
  have h1 : FieldValue.getValue env fv = Except.error DecryptError.invalidToken := by
    simp [FieldValue.getValue, hv, decrypt_field, hd]
  refine ⟨h1, ?_⟩
  intro o hc
  rw [h1] at hc
  exact Except.noConfusion hc

/-- Claim C7, witness: a field holding ciphertext the Fernet key cannot
decrypt. -/
theorem getValue_decrypt_error_witness :
    FieldValue.getValue badDecEnv { _value := some "junk", encrypted := false } =
      Except.error DecryptError.invalidToken :=
  (getValue_decrypt_error badDecEnv { _value := some "junk", encrypted := false }
    "junk" rfl rfl).1

/-- Claim C8: a list value is joined with newline separators before any
encryption — on every field, whatever its `encrypted` flag, setting the list
is the same set as setting the joined string (the join at lines 70-72
precedes both the padding/PGP branch and the symmetric codec); and on an
`encrypted = false` field the stored column is the symmetric encryption of
the joined string and the getter returns it, in particular `"a\nb\nc"` for
`["a","b","c"]`. -/
theorem setValue_list_join (env : CryptoEnv) (user : User) (fv : FieldValue)
    (l : List String) (hrt : env.Roundtrips) :
    FieldValue.setValue env user fv (Sum.inr l) =
      FieldValue.setValue env user fv (Sum.inl (String.intercalate "\n" l)) ∧
    (fv.encrypted = false →
      FieldValue.setValue env user fv (Sum.inr l) =
        Except.ok { fv with
          _value := some (env.fernetEncrypt (String.intercalate "\n" l)) } ∧
      FieldValue.getValue env { fv with
          _value := some (env.fernetEncrypt (String.intercalate "\n" l)) } =
        Except.ok (some (String.intercalate "\n" l))) := by
  refine ⟨rfl, ?_⟩
  intro henc
  constructor
  · simp [FieldValue.setValue, FieldValue.valToSave, joinInput, henc,
      storeEncrypted, encrypt_field]
  · simp [FieldValue.getValue, decrypt_field, hrt (String.intercalate "\n" l)]

/-- Claim C8, witness: setting `["a","b","c"]` on an `encrypted = false` field
and getting back `"a\nb\nc"`. -/
theorem setValue_list_join_witness :
    FieldValue.setValue idEnv keyUser plainField (Sum.inr ["a", "b", "c"]) =
      Except.ok { _value := some "a\nb\nc", encrypted := false } ∧
    FieldValue.getValue idEnv { _value := some "a\nb\nc", encrypted := false } =
      Except.ok (some "a\nb\nc") :=
  (setValue_list_join idEnv keyUser plainField ["a", "b", "c"] (fun _ => rfl)).2 rfl

/-- Claim C9: the final store step of the setter (lines 93-98) writes the
empty string when the symmetric codec yields `None`, and the codec's output
in every other case; every successful set goes through exactly this step
applied to `encrypt_field` of some `val_to_save`. -/
theorem setValue_store_policy :
    (∀ fv : FieldValue, storeEncrypted fv none = { fv with _value := some "" }) ∧
    (∀ (fv : FieldValue) (v : String),
      storeEncrypted fv (some v) = { fv with _value := some v }) ∧
    (∀ (env : CryptoEnv) (user : User) (fv : FieldValue)
      (input : String ⊕ List String) (fv' : FieldValue),
      FieldValue.setValue env user fv input = Except.ok fv' →
      ∃ v : String,
        fv' = storeEncrypted fv (encrypt_field env.fernetEncrypt (some v))) := by
  refine ⟨fun _ => rfl, fun _ _ => rfl, ?_⟩
  intro env user fv input fv' h
  unfold FieldValue.setValue at h
  cases hbr : FieldValue.valToSave env user fv (joinInput input) with
  | error e =>
    rw [hbr] at h
    exact absurd h (by simp)
  | ok val_to_save =>
    rw [hbr] at h
    simp only [Except.ok.injEq] at h
    exact ⟨val_to_save, h.symm⟩

/-- Claim C9, witness: the successful-set conjunct applied to a concrete
plain-field set. -/
theorem setValue_store_policy_witness :
    ∃ v : String,
      ({ _value := some "x", encrypted := false } : FieldValue) =
        storeEncrypted plainField (encrypt_field idEnv.fernetEncrypt (some v)) :=
  setValue_store_policy.2.2 idEnv keyUser plainField (Sum.inl "x")
    { _value := some "x", encrypted := false } rfl

/-- Claim C10: the padding loop of `add_padding` terminates for every input
and positive block size — each iteration appends a word plus a space (at
least one character), so within `target_len` iterations the loop exits:
running it with any extra fuel returns the same result, and that result has
reached the target length. -/
theorem add_padding_loop_terminates (choice : Nat → String) (value : String)
    (b k : Nat) (_hb : 0 < b) :
    padLoopFuel choice ((b - (value ++ PADDING_HEADER).length % b) + k) 0 ""
        (b - (value ++ PADDING_HEADER).length % b) =
      padLoopFuel choice (b - (value ++ PADDING_HEADER).length % b) 0 ""
        (b - (value ++ PADDING_HEADER).length % b) ∧
    b - (value ++ PADDING_HEADER).length % b ≤
      (padLoopFuel choice (b - (value ++ PADDING_HEADER).length % b) 0 ""
        (b - (value ++ PADDING_HEADER).length % b)).length :=
  ⟨padLoopFuel_fuel_sufficient choice _ k 0 ""
      (b - (value ++ PADDING_HEADER).length % b) (by omega),
    padLoopFuel_reaches choice _ 0 ""
      (b - (value ++ PADDING_HEADER).length % b) (by omega)⟩

/-- Claim C10, witness at `value = ""`, `b = 7`, three units of extra fuel. -/
theorem add_padding_loop_terminates_witness :
    padLoopFuel (fun _ => "apple") ((7 - ("" ++ PADDING_HEADER).length % 7) + 3) 0 ""
        (7 - ("" ++ PADDING_HEADER).length % 7) =
      padLoopFuel (fun _ => "apple") (7 - ("" ++ PADDING_HEADER).length % 7) 0 ""
        (7 - ("" ++ PADDING_HEADER).length % 7) ∧
    7 - ("" ++ PADDING_HEADER).length % 7 ≤
      (padLoopFuel (fun _ => "apple") (7 - ("" ++ PADDING_HEADER).length % 7) 0 ""
        (7 - ("" ++ PADDING_HEADER).length % 7)).length :=
  add_padding_loop_terminates (fun _ => "apple") "" 7 3 (by decide)

end TipLine
